import Mathlib

/-!
Shallow embedding of the codernetes master's coordination core
(src/master/models.py, src/master/storage.py, src/master/server.py,
src/master/api.py) and proofs about it.

Data model (models.py): `JobStatus`, `RepositorySpec`, `Job`.
Store (storage.py): the SQLite tables `jobs`, `job_logs` and the per-job
log-sequence cache are modelled as Lean lists held in a `Storage` record;
SQL statements become list transformations with the same row-level
semantics (a `WHERE job_id = ?` update maps over the rows touching exactly
the matching ones, `ORDER BY` becomes an insertion sort, `LIMIT` a take).
Timestamps (`datetime`) are modelled as natural numbers; the store clock
`datetime('now')` and `datetime.utcnow()` become explicit `now` arguments.
JSON-encoded columns are kept at the value level: Python's
`json.loads (json.dumps v)` is the identity on the encoded values
(lists of strings, string-to-string dicts), so rows hold the decoded values
directly.  The one place where the encoding itself fails — `repo.__dict__`
on a `slots=True` dataclass instance, which raises `AttributeError` — is
modelled explicitly (`RepositorySpec.dunderDict`).
-/

/-- JobStatus (models.py lines 10-18). -/
inductive JobStatus where
  | pending
  | queued
  | running
  | succeeded
  | failed
  | cancelled
deriving DecidableEq, Repr

/-- The set {SUCCEEDED, FAILED, CANCELLED} used by storage.py line 153. -/
def JobStatus.isTerminal : JobStatus → Bool
  | .succeeded => true
  | .failed => true
  | .cancelled => true
  | _ => false

/-- RepositorySpec (models.py lines 21-27), declared `@dataclass(slots=True)`. -/
structure RepositorySpec where
  url : String
  branch : Option String := none
  subdirectory : Option String := none
deriving DecidableEq, Repr

/-- Job (models.py lines 30-45).  `metadata` is a string-to-string dict,
modelled as an association list. -/
structure Job where
  job_id : String
  prompt : String
  created_at : Nat
  status : JobStatus := .pending
  target_node_id : Option String := none
  requested_tags : List String := []
  repositories : List RepositorySpec := []
  metadata : List (String × String) := []
  log_path : Option String := none
  result_summary : Option String := none
  error_message : Option String := none
  finished_at : Option Nat := none
deriving DecidableEq, Repr

/-- A row of the `job_logs` table (storage.py lines 38-45). -/
structure LogEntry where
  job_id : String
  seq : Nat
  timestamp : Nat
  level : String
  message : String
deriving DecidableEq, Repr

/-- Python exceptions that the embedded code can raise. -/
inductive PyExc where
  | attributeError
deriving DecidableEq, Repr

/-- The Storage state (storage.py class Storage): the `jobs` and `job_logs`
tables plus the in-memory `_log_seq_cache` dict (storage.py line 68). -/
structure Storage where
  jobs : List Job := []
  job_logs : List LogEntry := []
  log_seq_cache : List (String × Nat) := []
deriving DecidableEq, Repr

/-- A freshly bootstrapped store: empty tables, empty cache. -/
def Storage.emptyStore : Storage := {}

/-- Python dict read `d.get(k)` on the string-to-nat cache dict. -/
def cacheGet (m : List (String × Nat)) (k : String) : Option Nat :=
  match m with
  | [] => none
  | (a, b) :: rest => if a = k then some b else cacheGet rest k

/-- Python dict write `d[k] = v` on the cache dict. -/
def cacheSet (m : List (String × Nat)) (k : String) (v : Nat) : List (String × Nat) :=
  match m with
  | [] => [(k, v)]
  | (a, b) :: rest => if a = k then (a, v) :: rest else (a, b) :: cacheSet rest k v

/-- In the source, RepositorySpec is a `slots=True` dataclass (models.py
line 21): its instances have no `__dict__` attribute, so the expression
`repo.__dict__` (storage.py line 80, api.py line 198, server.py line 278)
raises AttributeError.  We model that attribute access faithfully. -/
def RepositorySpec.dunderDict (_ : RepositorySpec) :
    Except PyExc (List (String × Option String)) :=
  .error .attributeError

/-- Insert-or-replace by primary key `job_id`: the ON CONFLICT clause of
storage.py lines 98-102 replaces every non-key column of the existing row
with the new value. -/
def upsertRow (rows : List Job) (job : Job) : List Job :=
  if rows.any (fun j => decide (j.job_id = job.job_id)) then
    rows.map (fun j => if j.job_id = job.job_id then job else j)
  else
    rows ++ [job]

/-- Storage.upsert_job (storage.py lines 79-104).  The first statement,
`[repo.__dict__ for repo in job.repositories]`, evaluates `__dict__` on
each repository and therefore raises AttributeError as soon as the list is
non-empty; only then is the row written. -/
def Storage.upsert_job (st : Storage) (job : Job) : Except PyExc Storage :=
  match job.repositories.mapM RepositorySpec.dunderDict with
  | .error e => .error e
  | .ok _ => .ok { st with jobs := upsertRow st.jobs job }

/-- Storage.get_job (storage.py lines 106-108). -/
def Storage.get_job (st : Storage) (job_id : String) : Option Job :=
  st.jobs.find? (fun j => decide (j.job_id = job_id))

/-- Storage.update_job_status (storage.py lines 131-162): a single UPDATE
of the row whose job_id matches.  The `status` column is always assigned
(its value is never NULL); each of `log_path`, `result_summary`,
`error_message` is assigned only when the argument is not None; and when
the new status is terminal, `finished_at` is assigned the store clock
(`datetime('now')`, modelled by the explicit argument `now`).  The update
is unconditional on the current status of the row. -/
def Storage.update_job_status (st : Storage) (job_id : String) (status : JobStatus)
    (log_path result_summary error_message : Option String) (now : Nat) : Storage :=
  { st with jobs := st.jobs.map (fun j =>
      if j.job_id = job_id then
        { j with
          status := status
          log_path := match log_path with
            | some v => some v
            | none => j.log_path
          result_summary := match result_summary with
            | some v => some v
            | none => j.result_summary
          error_message := match error_message with
            | some v => some v
            | none => j.error_message
          finished_at := if status.isTerminal then some now else j.finished_at }
      else j) }

/-- The WHERE clause of Storage.assign_job (storage.py lines 186):
`job_id = ? AND status IN (pending, queued)`. -/
def assignHit (job_id : String) (j : Job) : Bool :=
  decide (j.job_id = job_id ∧ (j.status = .pending ∨ j.status = .queued))

/-- Storage.assign_job (storage.py lines 182-200): the conditional UPDATE
sets status to RUNNING, target_node_id to the node and result_summary to
the sentinel "dispatched" on every row matched by the WHERE clause, and the
function returns `cursor.rowcount > 0`, i.e. whether any row matched. -/
def Storage.assign_job (st : Storage) (job_id node_id : String) : Storage × Bool :=
  ({ st with jobs := st.jobs.map (fun j =>
      if assignHit job_id j then
        { j with
          status := .running
          target_node_id := some node_id
          result_summary := some "dispatched" }
      else j) },
   st.jobs.any (assignHit job_id))

/-- The rows of `job_logs` belonging to one job, in table (insertion)
order. -/
def logsFor (st : Storage) (job_id : String) : List LogEntry :=
  st.job_logs.filter (fun e => decide (e.job_id = job_id))

/-- The `SELECT MAX(seq) FROM job_logs WHERE job_id=?` read of storage.py
line 207, with NULL coalesced to 0 (line 208). -/
def maxSeq (st : Storage) (job_id : String) : Nat :=
  ((logsFor st job_id).map (fun e => e.seq)).foldr Nat.max 0

/-- Storage.append_job_log (storage.py lines 204-223): the next sequence
number comes from the per-job cache, falling back to `MAX(seq)` (0 when the
job has no rows) on a cache miss; the incremented value is written back to
the cache and the new row is inserted.  `timestamp or datetime.utcnow()`
is modelled by `timestamp.getD now`. -/
def Storage.append_job_log (st : Storage) (job_id level message : String)
    (timestamp : Option Nat) (now : Nat) : Storage :=
  let seq0 := match cacheGet st.log_seq_cache job_id with
    | some n => n
    | none => maxSeq st job_id
  let seq := seq0 + 1
  { st with
    log_seq_cache := cacheSet st.log_seq_cache job_id seq
    job_logs := st.job_logs ++
      [{ job_id := job_id, seq := seq, timestamp := timestamp.getD now,
         level := level, message := message }] }

/-- Storage.list_job_logs (storage.py lines 225-234): WHERE job_id matches
and, when `after_seq` is given, seq is strictly greater; ORDER BY seq ASC;
LIMIT. -/
def Storage.list_job_logs (st : Storage) (job_id : String) (limit : Nat)
    (after_seq : Option Nat) : List LogEntry :=
  let rows := st.job_logs.filter (fun e =>
    decide (e.job_id = job_id) &&
      (match after_seq with
       | none => true
       | some k => decide (k < e.seq)))
  (List.insertionSort (fun a b => a.seq ≤ b.seq) rows).take limit

/-- Storage.list_jobs_by_status (storage.py lines 121-129): empty status
list short-circuits to []; otherwise WHERE status IN, ORDER BY
datetime(created_at) ASC, LIMIT. -/
def Storage.list_jobs_by_status (st : Storage) (statuses : List JobStatus)
    (limit : Nat) : List Job :=
  if statuses = [] then []
  else
    (List.insertionSort (fun a b => a.created_at ≤ b.created_at)
      (st.jobs.filter (fun j => decide (j.status ∈ statuses)))).take limit

/-- The slice of a connected Client (server.py Client dataclass) that the
job-selection rule reads: the server-minted uid and, when a `node.hello`
has populated `metadata`, its tag list. -/
structure Client where
  uid : String
  meta_tags : Option (List String) := none

/-- The directed-match test of server.py lines 256-258: status QUEUED and
target_node_id equal to this client's uid. -/
def directedMatch (uid : String) (j : Job) : Bool :=
  decide (j.status = .queued ∧ j.target_node_id = some uid)

/-- The tag-match test of server.py lines 263-271: status PENDING, target
absent (`job.target_node_id not in (None, "")` skips the row, so None and
the empty string both count as absent), and the requested-tag set a subset
of the node's tag set (an empty requested set always passes). -/
def tagMatch (node_tags : List String) (j : Job) : Bool :=
  decide (j.status = .pending ∧
    (j.target_node_id = none ∨ j.target_node_id = some "") ∧
    ∀ t ∈ j.requested_tags, t ∈ node_tags)

/-- MasterServer._select_job_for_client (server.py lines 254-272): scan the
candidate list once for a directed match, then once for a tag match, taking
the first hit of each scan; `node_tags` is empty when the client has no
cached metadata (line 261). -/
def select_job_for_client (client : Client) (jobs : List Job) : Option Job :=
  match jobs.find? (directedMatch client.uid) with
  | some j => some j
  | none => jobs.find? (tagMatch (client.meta_tags.getD []))

/-- Python `str.lower()` on ASCII data: lowercase every character. -/
def pyLower (s : String) : String := ⟨s.data.map Char.toLower⟩

/-- The `job.log` payload fields read by the handler (server.py lines
496-498): each `payload.get` yields None when the key is absent. -/
structure JobLogPayload where
  job_id : Option String := none
  level : Option String := none
  message : Option String := none

/-- MasterServer._handle_job_log_message (server.py lines 495-505), the
handler the router invokes for every inbound `job.log` envelope (server.py
lines 456-457).  It formats one line and forwards it to the process logger
(LOGGER.error / LOGGER.warning / LOGGER.info according to the lowercased
level); it performs no Storage call.  We model the master state as the
Storage paired with the process logger's line buffer (level, text). -/
def handle_job_log_message (st : Storage) (logger : List (String × String))
    (p : JobLogPayload) : Storage × List (String × String) :=
  let job_id := p.job_id.getD "unknown"
  let level := pyLower (p.level.getD "info")
  let message := p.message.getD ""
  let text := "[job " ++ job_id ++ "] " ++ message
  let route := if level = "error" then "error"
    else if level = "warning" then "warning" else "info"
  (st, logger ++ [(route, text)])

/-- Python `str.strip()` with no argument: drop leading and trailing
whitespace. -/
def pyStrip (s : String) : String :=
  ⟨((s.data.dropWhile Char.isWhitespace).reverse.dropWhile Char.isWhitespace).reverse⟩

/-- The request body fields read by ApiHandler.create_job, each
`data.get(...)` modelled as an optional field with the code's default. -/
structure RepoPayload where
  url : Option String := none
  branch : Option String := none
  subdirectory : Option String := none

/-- CreateJobData: the JSON body of POST /api/jobs as read by api.py
lines 51-71. -/
structure CreateJobData where
  prompt : Option String := none
  repositories : List RepoPayload := []
  requested_tags : List String := []
  target_node_id : Option String := none
  origin : Option String := none

/-- The HTTP outcome of a create_job call: 201 with the materialised job,
400 bad-request, or 500 from an unhandled Python exception. -/
inductive ApiResponse where
  | created : Job → ApiResponse
  | badRequest : String → ApiResponse
  | internalError : PyExc → ApiResponse
deriving DecidableEq, Repr

/-- ApiHandler.create_job (api.py lines 45-74).  The prompt is coerced to a
string, stripped, and rejected with bad-request when empty; repositories
keep only entries with a truthy url; requested tags are stripped and the
falsy ones dropped; a falsy target_node_id becomes None; the job gets the
server-minted `fresh_id`, `created_at := now`, status QUEUED exactly when a
target survived, metadata {origin: data.get("origin", "api")}; finally the
job is upserted and returned with 201.  An exception out of upsert_job
escapes the handler (HTTP 500) before any row is written. -/
def create_job (st : Storage) (data : CreateJobData) (fresh_id : String)
    (now : Nat) : Storage × ApiResponse :=
  let prompt := pyStrip (data.prompt.getD "")
  if prompt = "" then (st, .badRequest "prompt is required")
  else
    let repositories := data.repositories.filterMap (fun r =>
      match r.url with
      | none => none
      | some u => if u = "" then none
          else some { url := u, branch := r.branch,
                      subdirectory := r.subdirectory : RepositorySpec })
    let requested_tags := data.requested_tags.filterMap (fun t =>
      if pyStrip t = "" then none else some (pyStrip t))
    let target_node := match data.target_node_id with
      | none => none
      | some t => if t = "" then none else some t
    let job : Job :=
      { job_id := fresh_id
        prompt := prompt
        created_at := now
        status := if target_node.isSome then .queued else .pending
        target_node_id := target_node
        requested_tags := requested_tags
        repositories := repositories
        metadata := [("origin", data.origin.getD "api")] }
    match st.upsert_job job with
    | .ok st2 => (st2, .created job)
    | .error e => (st, .internalError e)

/-- One call to append_job_log: its arguments.  `now` is the wall clock
used when `timestamp` is absent. -/
structure AppendReq where
  job_id : String
  level : String
  message : String
  timestamp : Option Nat := none
  now : Nat := 0

/-- Replay a sequence of append_job_log calls against a freshly
bootstrapped store. -/
def runAppends (reqs : List AppendReq) : Storage :=
  reqs.foldl
    (fun st r => st.append_job_log r.job_id r.level r.message r.timestamp r.now)
    Storage.emptyStore

/-- The reachable-state invariant of the log table and its cache: for every
job the sequence numbers are exactly 1..n in insertion order, and the cache
entry, when present, equals the row count (when absent the job has no
rows). -/
def SeqInv (st : Storage) : Prop :=
  ∀ j : String,
    (logsFor st j).map (fun e => e.seq) = List.range' 1 (logsFor st j).length ∧
    (cacheGet st.log_seq_cache j = some (logsFor st j).length ∨
      (cacheGet st.log_seq_cache j = none ∧ logsFor st j = []))

/-- A pending job used to exercise assign_job. -/
def jobA : Job := { job_id := "x", prompt := "p", created_at := 0, status := .pending }

/-- A one-row store holding `jobA`. -/
def stA : Storage := { jobs := [jobA] }

/-- A job already in the terminal status SUCCEEDED. -/
def jobT : Job :=
  { job_id := "j1", prompt := "p", created_at := 0, status := .succeeded,
    finished_at := some 1 }

/-- A one-row store holding the terminal job `jobT`. -/
def stT : Storage := { jobs := [jobT] }

/-- A running job carrying a log_path, for the sparse-update frame check. -/
def jobR : Job :=
  { job_id := "a", prompt := "p", created_at := 2, status := .running,
    log_path := some "/tmp/a.log" }

/-- A one-row store holding `jobR`. -/
def stR : Storage := { jobs := [jobR] }

/-- A `job.log` envelope body with all fields present. -/
def payloadL : JobLogPayload :=
  { job_id := some "j1", level := some "info", message := some "m" }

/-- A create-job request with a non-empty prompt and one repository with a
url: the smallest request that reaches the `repo.__dict__` access. -/
def dataRepo : CreateJobData :=
  { prompt := some "p", repositories := [{ url := some "https://example.com/r.git" }] }

/-- A well-formed job carrying one repository, for the upsert round-trip
claim. -/
def jobRepo : Job :=
  { job_id := "jr", prompt := "p", created_at := 0,
    repositories := [{ url := "https://example.com/repo.git" }] }

/-- A queued job directed at node "A". -/
def jobQ : Job :=
  { job_id := "q1", prompt := "p", created_at := 1, status := .queued,
    target_node_id := some "A" }

/-- A one-row store holding `jobQ`. -/
def stQ : Storage := { jobs := [jobQ] }

/-- A client whose uid is the target of `jobQ`. -/
def clientA : Client := { uid := "A", meta_tags := some ["gpu"] }

/-- The dispatch tick's candidate list over `stQ`. -/
def jobsQ : List Job := stQ.list_jobs_by_status [.queued, .pending] 200

/-- Three appends, two of them for job "jw". -/
def reqsW : List AppendReq :=
  [{ job_id := "jw", level := "info", message := "one" },
   { job_id := "other", level := "info", message := "noise" },
   { job_id := "jw", level := "error", message := "two" }]

instance : DecidableRel (fun a b : Job => a.created_at ≤ b.created_at) :=
  fun a b => Nat.decLe a.created_at b.created_at

instance : IsTotal Job (fun a b => a.created_at ≤ b.created_at) :=
  ⟨fun a b => Nat.le_total a.created_at b.created_at⟩

instance : IsTrans Job (fun a b => a.created_at ≤ b.created_at) :=
  ⟨fun _ _ _ hab hbc => Nat.le_trans hab hbc⟩

instance : DecidableRel (fun a b : LogEntry => a.seq ≤ b.seq) :=
  fun a b => Nat.decLe a.seq b.seq

instance : IsTotal LogEntry (fun a b => a.seq ≤ b.seq) :=
  ⟨fun a b => Nat.le_total a.seq b.seq⟩

instance : IsTrans LogEntry (fun a b => a.seq ≤ b.seq) :=
  ⟨fun _ _ _ hab hbc => Nat.le_trans hab hbc⟩

/-! ## Theorems -/

/-- Helper: a map that fixes every element of a list is the identity. -/
theorem map_eq_self_of_fix {α : Type} {f : α → α} {l : List α}
    (h : ∀ a ∈ l, f a = a) : l.map f = l := by
  induction l with
  | nil => rfl
  | cons a tl ih =>
      simp [h a (List.mem_cons_self a tl), ih (fun b hb => h b (List.mem_cons_of_mem a hb))]

/-- C2 counterexample: the claim says a job in a terminal status never
transitions again because update_job_status rejects or ignores the
transition.  On the code, a SUCCEEDED job transitions back to RUNNING:
update_job_status overwrites the status unconditionally. -/
theorem c2_counterexample :
    stT.get_job "j1" = some jobT ∧ jobT.status = .succeeded ∧
    ((stT.update_job_status "j1" .running none none none 5).get_job "j1").map
      Job.status = some .running := by
  refine ⟨rfl, rfl, rfl⟩

/-- C2 (amended): update_job_status applies the requested status
unconditionally, including from a terminal status: every row whose job_id
matches ends with the requested status; terminal is not absorbing at the
store level. -/
theorem c2_update_overwrites_terminal (st : Storage) (id : String) (s : JobStatus)
    (lp rs em : Option String) (now : Nat) (i : Nat) (j : Job)
    (hj : st.jobs[i]? = some j) (hid : j.job_id = id) :
    ((st.update_job_status id s lp rs em now).jobs[i]?).map Job.status = some s := by
  simp [Storage.update_job_status, List.getElem?_map, hj, hid]

/-- C2 witness: the amended statement at the concrete terminal store. -/
theorem c2_update_overwrites_terminal_witness :
    ((stT.update_job_status "j1" .running none none none 5).jobs[0]?).map
      Job.status = some .running :=
  c2_update_overwrites_terminal stT "j1" .running none none none 5 0 jobT rfl rfl

/-- C4: evaluation at the failing input.  The claim says every inbound
`job.log` envelope leads to an append_job_log call, so a durable entry is
appended.  On the code, the handler the router invokes for `job.log`
frames only forwards the line to the process logger: after handling the
envelope {job_id: "j1", level: "info", message: "m"} on a fresh store, the
job_logs table is still empty, tailing the job returns nothing, and only
the process logger received the line. -/
theorem c4_job_log_not_persisted :
    (handle_job_log_message Storage.emptyStore [] payloadL).1 = Storage.emptyStore ∧
    (handle_job_log_message Storage.emptyStore [] payloadL).1.job_logs = [] ∧
    (handle_job_log_message Storage.emptyStore [] payloadL).1.list_job_logs
      "j1" 200 none = [] ∧
    (handle_job_log_message Storage.emptyStore [] payloadL).2 =
      [("info", "[job j1] m")] := by
  refine ⟨rfl, rfl, rfl, by decide⟩

/-- C8: evaluation at the failing input.  The claim says a request with a
non-empty prompt is stored and answered with 201.  On the code, the request
{prompt: "p", repositories: [{url: "https://example.com/r.git"}]} reaches
`upsert_job`, whose `repo.__dict__` access raises AttributeError (the
RepositorySpec dataclass uses slots), so the handler answers 500 and the
store is left unchanged. -/
theorem c8_create_job_crashes_on_repository :
    create_job Storage.emptyStore dataRepo "id-1" 7 =
      (Storage.emptyStore, .internalError .attributeError) := by
  decide

/-- C9: update_job_status for a job_id not present in the store is a silent
no-op: it returns normally (the model is a total function), creates no row
and leaves every existing job unchanged — the whole store is returned
as-is. -/
theorem c9_update_missing_id_noop (st : Storage) (id : String) (s : JobStatus)
    (lp rs em : Option String) (now : Nat)
    (habs : ∀ j ∈ st.jobs, j.job_id ≠ id) :
    st.update_job_status id s lp rs em now = st := by
  obtain ⟨jobs, logs, cache⟩ := st
  simp only [Storage.update_job_status]
  congr 1
  exact map_eq_self_of_fix (fun j hj => by simp [habs j hj])

/-- C9 witness: updating a job_id absent from a concrete one-row store
returns the store unchanged. -/
theorem c9_update_missing_id_noop_witness :
    stR.update_job_status "zz" .failed none none none 3 = stR :=
  c9_update_missing_id_noop stR "zz" .failed none none none 3
    (by intro j hj; simp [stR, jobR] at hj; simp [hj, jobR])

/-- C10: evaluation at the failing input.  The claim says upsert_job
followed by get_job round-trips every well-formed Job.  On the code,
upsert_job of a job whose repositories list is non-empty raises
AttributeError at `repo.__dict__` (RepositorySpec is a slots dataclass)
before any row is written, so no such job can be stored at all. -/
theorem c10_upsert_job_raises_on_repository :
    Storage.emptyStore.upsert_job jobRepo = .error .attributeError := by
  rfl

/-- C7: update_job_status is a sparse update.  Row by row: the log table
and the sequence cache are untouched; no row is created or deleted; a row
whose job_id differs is unchanged; for the matching row the status becomes
the requested one, each of log_path / result_summary / error_message is
overwritten exactly when the call supplies it and preserved otherwise, the
finish timestamp is set to the store clock exactly when the new status is
terminal (and preserved otherwise), and prompt, target_node_id,
requested_tags, repositories, metadata and created_at are untouched (the
record update below names no other field). -/
theorem c7_update_job_status_sparse (st : Storage) (id : String) (s : JobStatus)
    (lp rs em : Option String) (now : Nat) :
    (st.update_job_status id s lp rs em now).job_logs = st.job_logs ∧
    (st.update_job_status id s lp rs em now).log_seq_cache = st.log_seq_cache ∧
    (∀ i : Nat, st.jobs[i]? = none →
      (st.update_job_status id s lp rs em now).jobs[i]? = none) ∧
    (∀ (i : Nat) (j : Job), st.jobs[i]? = some j → j.job_id ≠ id →
      (st.update_job_status id s lp rs em now).jobs[i]? = some j) ∧
    (∀ (i : Nat) (j : Job), st.jobs[i]? = some j → j.job_id = id →
      (st.update_job_status id s lp rs em now).jobs[i]? = some
        { j with
          status := s
          log_path := match lp with
            | some v => some v
            | none => j.log_path
          result_summary := match rs with
            | some v => some v
            | none => j.result_summary
          error_message := match em with
            | some v => some v
            | none => j.error_message
          finished_at := if s.isTerminal then some now else j.finished_at }) := by
  refine ⟨rfl, rfl, ?_, ?_, ?_⟩
  · intro i hi
    simp [Storage.update_job_status, List.getElem?_map, hi]
  · intro i j hj hne
    simp [Storage.update_job_status, List.getElem?_map, hj, hne]
  · intro i j hj hid
    simp [Storage.update_job_status, List.getElem?_map, hj, hid]

/-- C7 witness: a terminal sparse update of a concrete row overwrites only
result_summary, sets the finish timestamp to the clock, and keeps the
stored log_path. -/
theorem c7_update_job_status_sparse_witness :
    (stR.update_job_status "a" .succeeded none (some "ok") none 9).jobs[0]? =
      some { jobR with
             status := .succeeded
             result_summary := some "ok"
             finished_at := some 9 } :=
  (c7_update_job_status_sparse stR "a" .succeeded none (some "ok") none 9).2.2.2.2
    0 jobR rfl rfl

/-- C1: assign_job returns true exactly when the store holds a row with
this id in status PENDING or QUEUED; such a row transitions to RUNNING with
target_node_id set to the node and result_summary set to "dispatched";
every other row — and, when the call returns false, the whole store — is
unchanged, and no log or cache state is touched.  Consequently a second
assign_job for the same id (with no intervening transition out of RUNNING)
returns false, so of two racing calls at most the first can return true. -/
theorem c1_assign_job (st : Storage) (id nid nid2 : String) :
    ((st.assign_job id nid).2 = true ↔
      ∃ j ∈ st.jobs, j.job_id = id ∧ (j.status = .pending ∨ j.status = .queued)) ∧
    (st.assign_job id nid).1.job_logs = st.job_logs ∧
    (st.assign_job id nid).1.log_seq_cache = st.log_seq_cache ∧
    (∀ (i : Nat) (j : Job), st.jobs[i]? = some j → j.job_id = id →
      (j.status = .pending ∨ j.status = .queued) →
      (st.assign_job id nid).1.jobs[i]? = some
        { j with
          status := .running
          target_node_id := some nid
          result_summary := some "dispatched" }) ∧
    (∀ (i : Nat) (j : Job), st.jobs[i]? = some j →
      ¬(j.job_id = id ∧ (j.status = .pending ∨ j.status = .queued)) →
      (st.assign_job id nid).1.jobs[i]? = some j) ∧
    ((st.assign_job id nid).2 = false → (st.assign_job id nid).1 = st) ∧
    ((st.assign_job id nid).1.assign_job id nid2).2 = false := by
  refine ⟨?_, rfl, rfl, ?_, ?_, ?_, ?_⟩
  · simp [Storage.assign_job, List.any_eq_true, assignHit]
  · intro i j hj hid hst
    simp [Storage.assign_job, List.getElem?_map, hj, assignHit, hid, hst]
  · intro i j hj hmiss
    simp [Storage.assign_job, List.getElem?_map, hj, assignHit, hmiss]
  · intro hfalse
    have hall : ∀ j ∈ st.jobs, assignHit id j = false := by
      simpa [Storage.assign_job, List.any_eq_false] using hfalse
    obtain ⟨jobs, logs, cache⟩ := st
    simp only [Storage.assign_job]
    congr 1
    exact map_eq_self_of_fix (fun j hj => by simp [hall j hj])
  · rw [Bool.eq_false_iff]
    intro htrue
    rw [Storage.assign_job, List.any_eq_true] at htrue
    obtain ⟨j2, hj2, hhit⟩ := htrue
    simp only [Storage.assign_job, List.mem_map] at hj2
    obtain ⟨j, hj, rfl⟩ := hj2
    by_cases h : assignHit id j = true
    · rw [if_pos h] at hhit
      simp [assignHit] at hhit
    · rw [if_neg h] at hhit
      exact h hhit

/-- C1 witness: on a store holding one pending job "x", the first
assign_job returns true and rewrites the row, and an immediately following
assign_job for the same id returns false. -/
theorem c1_assign_job_witness :
    (stA.assign_job "x" "n1").2 = true ∧
    ((stA.assign_job "x" "n1").1.assign_job "x" "n2").2 = false ∧
    (stA.assign_job "x" "n1").1.jobs[0]? = some
      { jobA with
        status := .running
        target_node_id := some "n1"
        result_summary := some "dispatched" } := by
  have h := c1_assign_job stA "x" "n1" "n2"
  exact ⟨h.1.mpr ⟨jobA, by simp [stA], rfl, Or.inl rfl⟩, h.2.2.2.2.2.2,
         h.2.2.2.1 0 jobA rfl rfl (Or.inl rfl)⟩

/-- Helper: in a list sorted by a Nat key, the first element satisfying a
test is a member, satisfies the test, and has a minimal key among all
members satisfying the test. -/
theorem find_first_minimal {α : Type} {f : α → Nat} {p : α → Bool} :
    ∀ {l : List α}, l.Pairwise (fun a b => f a ≤ f b) →
    ∀ {a : α}, l.find? p = some a →
    a ∈ l ∧ p a = true ∧ ∀ b ∈ l, p b = true → f a ≤ f b := by
  intro l
  induction l with
  | nil => intro _ a ha; simp at ha
  | cons x xs ih =>
      intro hp a ha
      rw [List.find?_cons] at ha
      rcases List.pairwise_cons.mp hp with ⟨hx_le, hxs⟩
      by_cases hx : p x = true
      · rw [hx] at ha
        injection ha with ha
        subst ha
        refine ⟨List.mem_cons_self _ _, hx, ?_⟩
        intro b hb _
        rcases List.mem_cons.mp hb with hb | hb
        · exact hb ▸ Nat.le_refl _
        · exact hx_le b hb
      · rw [Bool.eq_false_iff.mpr hx] at ha
        obtain ⟨hmem, hpa, hmin⟩ := ih hxs ha
        refine ⟨List.mem_cons_of_mem _ hmem, hpa, ?_⟩
        intro b hb hpb
        rcases List.mem_cons.mp hb with hb | hb
        · exact absurd (hb ▸ hpb) hx
        · exact hmin b hb hpb

/-- Helper: the dispatcher's candidate list is sorted by creation time
ascending (the ORDER BY of list_jobs_by_status). -/
theorem list_jobs_by_status_sorted (st : Storage) (sts : List JobStatus) (lim : Nat) :
    (st.list_jobs_by_status sts lim).Pairwise
      (fun a b => a.created_at ≤ b.created_at) := by
  unfold Storage.list_jobs_by_status
  split
  · exact List.Pairwise.nil
  · exact List.Pairwise.sublist (List.take_sublist _ _)
      (List.sorted_insertionSort _ _)

/-- C3: the dispatch matching rule.  Over the tick's candidate list (which
list_jobs_by_status returns in creation-time ascending order), the selector
returns no job exactly when no candidate is a directed match or a tag match
for this client; and when it returns a job, either that job is a directed
match (status QUEUED, target equal to the client's uid) of minimal creation
time among directed matches, or no candidate is a directed match and the
job is a tag match (status PENDING, no target, requested tags a subset of
the client's tags) of minimal creation time among tag matches — so within
each rule the oldest eligible job wins. -/
theorem c3_dispatch_matching (st : Storage) (client : Client) (jobs : List Job)
    (hjobs : jobs = st.list_jobs_by_status [.queued, .pending] 200) :
    ((select_job_for_client client jobs = none) ↔
      ∀ j ∈ jobs, directedMatch client.uid j = false ∧
        tagMatch (client.meta_tags.getD []) j = false) ∧
    ∀ j : Job, select_job_for_client client jobs = some j →
      j ∈ jobs ∧
      ((directedMatch client.uid j = true ∧
         ∀ b ∈ jobs, directedMatch client.uid b = true →
           j.created_at ≤ b.created_at) ∨
       ((∀ b ∈ jobs, directedMatch client.uid b = false) ∧
         tagMatch (client.meta_tags.getD []) j = true ∧
         ∀ b ∈ jobs, tagMatch (client.meta_tags.getD []) b = true →
           j.created_at ≤ b.created_at)) := by
  have hsort : jobs.Pairwise (fun a b => a.created_at ≤ b.created_at) := by
    rw [hjobs]; exact list_jobs_by_status_sorted st _ 200
  constructor
  · constructor
    · intro hnone
      cases hd : jobs.find? (directedMatch client.uid) with
      | some j0 => simp [select_job_for_client, hd] at hnone
      | none =>
          have ht : jobs.find? (tagMatch (client.meta_tags.getD [])) = none := by
            simpa [select_job_for_client, hd] using hnone
          intro j hj
          exact ⟨Bool.eq_false_iff.mpr (List.find?_eq_none.mp hd j hj),
                 Bool.eq_false_iff.mpr (List.find?_eq_none.mp ht j hj)⟩
    · intro hall
      have hd : jobs.find? (directedMatch client.uid) = none :=
        List.find?_eq_none.mpr (fun j hj => by simp [(hall j hj).1])
      have ht : jobs.find? (tagMatch (client.meta_tags.getD [])) = none :=
        List.find?_eq_none.mpr (fun j hj => by simp [(hall j hj).2])
      simp [select_job_for_client, hd, ht]
  · intro j hsel
    cases hd : jobs.find? (directedMatch client.uid) with
    | some j0 =>
        have hj0 : j0 = j := by
          simpa [select_job_for_client, hd] using hsel
        subst hj0
        obtain ⟨hmem, hp, hmin⟩ := find_first_minimal hsort hd
        exact ⟨hmem, Or.inl ⟨hp, hmin⟩⟩
    | none =>
        have ht : jobs.find? (tagMatch (client.meta_tags.getD [])) = some j := by
          simpa [select_job_for_client, hd] using hsel
        obtain ⟨hmem, hp, hmin⟩ := find_first_minimal hsort ht
        exact ⟨hmem, Or.inr ⟨fun b hb =>
          Bool.eq_false_iff.mpr (List.find?_eq_none.mp hd b hb), hp, hmin⟩⟩

/-- C3 witness: over a store holding one queued job targeted at node "A",
the selector for a client with uid "A" picks exactly that job, and the job
is a member of the tick's candidate list. -/
theorem c3_dispatch_matching_witness :
    select_job_for_client clientA jobsQ = some jobQ ∧ jobQ ∈ jobsQ := by
  have hsel : select_job_for_client clientA jobsQ = some jobQ := by decide
  exact ⟨hsel,
    ((c3_dispatch_matching stQ clientA jobsQ rfl).2 jobQ hsel).1⟩

/-- Helper: reading back the key just written to the cache dict. -/
theorem cacheGet_cacheSet_self (m : List (String × Nat)) (k : String) (v : Nat) :
    cacheGet (cacheSet m k v) k = some v := by
  induction m with
  | nil => simp [cacheSet, cacheGet]
  | cons hd tl ih =>
      obtain ⟨a, b⟩ := hd
      by_cases h : a = k
      · simp [cacheSet, cacheGet, h]
      · simp [cacheSet, cacheGet, h, ih]

/-- Helper: writing one key of the cache dict leaves the others alone. -/
theorem cacheGet_cacheSet_ne (m : List (String × Nat)) (k k2 : String) (v : Nat)
    (h : k2 ≠ k) : cacheGet (cacheSet m k v) k2 = cacheGet m k2 := by
  induction m with
  | nil => simp [cacheSet, cacheGet, Ne.symm h]
  | cons hd tl ih =>
      obtain ⟨a, b⟩ := hd
      by_cases ha : a = k
      · subst ha
        simp [cacheSet, cacheGet, Ne.symm h]
      · by_cases h2 : a = k2 <;> simp [cacheSet, cacheGet, ha, h2, ih, h]

/-- Helper: one append extends exactly the touched job's log slice, with
the sequence number the code computes from the cache or MAX(seq). -/
theorem logsFor_append (st : Storage) (job_id level message : String)
    (ts : Option Nat) (now : Nat) (j : String) :
    logsFor (st.append_job_log job_id level message ts now) j =
      logsFor st j ++
        (if job_id = j then
          [{ job_id := job_id
             seq := (match cacheGet st.log_seq_cache job_id with
               | some n => n
               | none => maxSeq st job_id) + 1
             timestamp := ts.getD now, level := level, message := message }]
        else []) := by
  unfold logsFor Storage.append_job_log
  rw [List.filter_append]
  congr 1
  by_cases h : job_id = j <;> simp [h]

/-- Helper: appending the next integer to a dense range extends it. -/
theorem range'_one_snoc (n : Nat) :
    List.range' 1 n ++ [n + 1] = List.range' 1 (n + 1) := by
  rw [List.range'_concat]
  simp [Nat.add_comm]

/-- Helper: append_job_log preserves the density invariant and grows the
touched job's row count by exactly one. -/
theorem seqInv_append (st : Storage) (hinv : SeqInv st)
    (job_id level message : String) (ts : Option Nat) (now : Nat) :
    SeqInv (st.append_job_log job_id level message ts now) ∧
    ∀ j : String,
      (logsFor (st.append_job_log job_id level message ts now) j).length =
        (logsFor st j).length + (if job_id = j then 1 else 0) := by
  have hseq0 : (match cacheGet st.log_seq_cache job_id with
      | some n => n
      | none => maxSeq st job_id) = (logsFor st job_id).length := by
    rcases (hinv job_id).2 with hc | ⟨hc, hemp⟩
    · rw [hc]
    · rw [hc, maxSeq, hemp]
      rfl
  have hlen : ∀ j : String,
      (logsFor (st.append_job_log job_id level message ts now) j).length =
        (logsFor st j).length + (if job_id = j then 1 else 0) := by
    intro j
    rw [logsFor_append, List.length_append]
    by_cases h : job_id = j <;> simp [h]
  refine ⟨?_, hlen⟩
  intro j
  by_cases h : job_id = j
  · subst h
    constructor
    · rw [logsFor_append, if_pos rfl]
      simp only [List.map_append, List.length_append, List.map_cons, List.map_nil,
        List.length_cons, List.length_nil, Nat.zero_add, (hinv job_id).1, hseq0]
      exact range'_one_snoc _
    · left
      rw [hlen job_id, if_pos rfl]
      show cacheGet (cacheSet st.log_seq_cache job_id
        ((match cacheGet st.log_seq_cache job_id with
          | some n => n
          | none => maxSeq st job_id) + 1)) job_id = _
      rw [cacheGet_cacheSet_self, hseq0]
  · have hlogs : logsFor (st.append_job_log job_id level message ts now) j =
        logsFor st j := by
      rw [logsFor_append, if_neg h, List.append_nil]
    have hcache : cacheGet
        (st.append_job_log job_id level message ts now).log_seq_cache j =
        cacheGet st.log_seq_cache j := by
      show cacheGet (cacheSet st.log_seq_cache job_id _) j = _
      exact cacheGet_cacheSet_ne _ _ _ _ (fun hj => h hj.symm)
    rw [hlogs, hcache]
    exact hinv j

/-- Helper: a freshly bootstrapped store satisfies the density invariant. -/
theorem seqInv_empty : SeqInv Storage.emptyStore := by
  intro j
  exact ⟨rfl, Or.inr ⟨rfl, rfl⟩⟩

/-- Helper: folding any sequence of appends preserves the invariant and
adds one row per append to the touched job. -/
theorem seqInv_foldl (reqs : List AppendReq) :
    ∀ st : Storage, SeqInv st →
      SeqInv (reqs.foldl (fun st r =>
        st.append_job_log r.job_id r.level r.message r.timestamp r.now) st) ∧
      ∀ j : String,
        (logsFor (reqs.foldl (fun st r =>
          st.append_job_log r.job_id r.level r.message r.timestamp r.now) st) j).length =
          (logsFor st j).length + reqs.countP (fun r => decide (r.job_id = j)) := by
  induction reqs with
  | nil =>
      intro st h
      exact ⟨h, fun j => by simp⟩
  | cons r rs ih =>
      intro st h
      have hstep := seqInv_append st h r.job_id r.level r.message r.timestamp r.now
      obtain ⟨h1, h2⟩ := ih _ hstep.1
      refine ⟨h1, fun j => ?_⟩
      rw [List.foldl_cons, h2 j, hstep.2 j, List.countP_cons]
      by_cases hrj : r.job_id = j
      all_goals simp [hrj]
      all_goals omega

/-- Helper: the replayed store satisfies the invariant, and each job's row
count equals the number of appends that named it. -/
theorem runAppends_inv (reqs : List AppendReq) :
    SeqInv (runAppends reqs) ∧
    ∀ j : String, (logsFor (runAppends reqs) j).length =
      reqs.countP (fun r => decide (r.job_id = j)) := by
  obtain ⟨h1, h2⟩ := seqInv_foldl reqs Storage.emptyStore seqInv_empty
  refine ⟨h1, fun j => ?_⟩
  unfold runAppends
  simpa [logsFor, Storage.emptyStore] using h2 j

/-- C5: starting from an empty store, after any sequence of append_job_log
calls the sequence numbers of a job's log entries, read in table order, are
exactly 1, 2, ..., n where n is the number of appends for that job — so
every seq is at least 1, the seq set is a dense prefix of the positive
integers, and each append took the next integer. -/
theorem c5_log_seqs_dense (reqs : List AppendReq) (j : String) :
    (logsFor (runAppends reqs) j).map (fun e => e.seq) =
      List.range' 1 (reqs.countP (fun r => decide (r.job_id = j))) := by
  obtain ⟨h1, h2⟩ := runAppends_inv reqs
  have hmap := (h1 j).1
  rw [h2 j] at hmap
  exact hmap

/-- Helper: dropping from a dense range shifts its start. -/
theorem range'_drop : ∀ (k s n : Nat),
    (List.range' s n).drop k = List.range' (s + k) (n - k) := by
  intro k
  induction k with
  | zero => intro s n; simp
  | succ k ih =>
      intro s n
      cases n with
      | zero => simp
      | succ m =>
          rw [List.range'_succ, List.drop_succ_cons, ih (s + 1) m]
          congr 1 <;> omega

/-- Helper: on a list whose key trace is a dense range, the strictly-above
filter is a drop. -/
theorem filter_seq_gt_eq_drop (k : Nat) :
    ∀ (l : List LogEntry) (s n : Nat),
      l.map (fun e => e.seq) = List.range' s n →
      l.filter (fun e => decide (k < e.seq)) = l.drop (k + 1 - s) := by
  intro l
  induction l with
  | nil => intro s n _; simp
  | cons e tl ih =>
      intro s n hmap
      cases n with
      | zero => simp at hmap
      | succ m =>
          rw [List.range'_succ] at hmap
          simp only [List.map_cons] at hmap
          injection hmap with hes htl
          by_cases hk : k < e.seq
          · have h0 : k + 1 - s = 0 := by omega
            have htl0 : tl.filter (fun e => decide (k < e.seq)) = tl := by
              rw [ih (s + 1) m htl]
              have : k + 1 - (s + 1) = 0 := by omega
              rw [this, List.drop_zero]
            rw [List.filter_cons_of_pos (by simp [hk]), h0, List.drop_zero, htl0]
          · have harith : k + 1 - s = (k + 1 - (s + 1)) + 1 := by omega
            rw [List.filter_cons_of_neg (by simp [hk]), ih (s + 1) m htl,
              harith, List.drop_succ_cons]

/-- Helper: list_job_logs with no after_seq is the job's slice, sorted by
seq, truncated to the limit. -/
theorem list_job_logs_none_eq (st : Storage) (j : String) (limit : Nat) :
    st.list_job_logs j limit none =
      (List.insertionSort (fun a b => a.seq ≤ b.seq) (logsFor st j)).take limit := by
  have h : st.job_logs.filter (fun e => decide (e.job_id = j) && true) = logsFor st j := by
    unfold logsFor
    exact List.filter_congr (fun e _ => Bool.and_true _)
  show (List.insertionSort (fun a b : LogEntry => a.seq ≤ b.seq)
    (st.job_logs.filter (fun e => decide (e.job_id = j) && true))).take limit =
    (List.insertionSort (fun a b : LogEntry => a.seq ≤ b.seq) (logsFor st j)).take limit
  rw [h]

/-- Helper: list_job_logs with after_seq is the job's slice filtered to
sequence numbers strictly above it, sorted, truncated. -/
theorem list_job_logs_some_eq (st : Storage) (j : String) (limit k : Nat) :
    st.list_job_logs j limit (some k) =
      (List.insertionSort (fun a b => a.seq ≤ b.seq)
        ((logsFor st j).filter (fun e => decide (k < e.seq)))).take limit := by
  have h : st.job_logs.filter (fun e => decide (e.job_id = j) && decide (k < e.seq)) =
      (logsFor st j).filter (fun e => decide (k < e.seq)) := by
    unfold logsFor
    rw [List.filter_filter]
    exact List.filter_congr (fun e _ => Bool.and_comm _ _)
  show (List.insertionSort (fun a b : LogEntry => a.seq ≤ b.seq)
    (st.job_logs.filter (fun e => decide (e.job_id = j) && decide (k < e.seq)))).take limit =
    (List.insertionSort (fun a b : LogEntry => a.seq ≤ b.seq)
      ((logsFor st j).filter (fun e => decide (k < e.seq)))).take limit
  rw [h]

/-- C6: incremental log tailing.  Replay any sequence of appends from an
empty store and let N be the number of appends naming job j.  With no
after_seq and limit at least N, list_job_logs returns the job's N lines
(in insertion order, which is seq order 1..N); and for after_seq = k with
k < N and limit at least N - k it returns exactly lines k+1..N, i.e. the
job's lines with the first k dropped, whose seq trace is k+1, ..., N —
ordered by sequence ascending in both cases. -/
theorem c6_log_tail (reqs : List AppendReq) (j : String) (limit k : Nat) :
    (reqs.countP (fun r => decide (r.job_id = j)) ≤ limit →
      (runAppends reqs).list_job_logs j limit none = logsFor (runAppends reqs) j ∧
      ((runAppends reqs).list_job_logs j limit none).map (fun e => e.seq) =
        List.range' 1 (reqs.countP (fun r => decide (r.job_id = j)))) ∧
    (k < reqs.countP (fun r => decide (r.job_id = j)) →
      reqs.countP (fun r => decide (r.job_id = j)) - k ≤ limit →
      (runAppends reqs).list_job_logs j limit (some k) =
        (logsFor (runAppends reqs) j).drop k ∧
      ((runAppends reqs).list_job_logs j limit (some k)).map (fun e => e.seq) =
        List.range' (k + 1) (reqs.countP (fun r => decide (r.job_id = j)) - k)) := by
  obtain ⟨h1, h2⟩ := runAppends_inv reqs
  have hmap := (h1 j).1
  rw [h2 j] at hmap
  have hlen := h2 j
  have hsorted : (logsFor (runAppends reqs) j).Pairwise
      (fun a b : LogEntry => a.seq ≤ b.seq) := by
    have hlt := List.pairwise_lt_range' 1 (reqs.countP (fun r => decide (r.job_id = j)))
    rw [← hmap] at hlt
    exact (List.pairwise_map.mp hlt).imp (fun h => Nat.le_of_lt h)
  constructor
  · intro hlim
    have heq : (runAppends reqs).list_job_logs j limit none =
        logsFor (runAppends reqs) j := by
      rw [list_job_logs_none_eq, List.Sorted.insertionSort_eq hsorted,
        List.take_of_length_le (by rw [hlen]; exact hlim)]
    exact ⟨heq, by rw [heq, hmap]⟩
  · intro hk hlim
    have hfilter : (logsFor (runAppends reqs) j).filter (fun e => decide (k < e.seq)) =
        (logsFor (runAppends reqs) j).drop k := by
      have := filter_seq_gt_eq_drop k (logsFor (runAppends reqs) j) 1
        (reqs.countP (fun r => decide (r.job_id = j))) hmap
      simpa using this
    have hsorted_drop : ((logsFor (runAppends reqs) j).drop k).Pairwise
        (fun a b : LogEntry => a.seq ≤ b.seq) :=
      List.Pairwise.sublist (List.drop_sublist k _) hsorted
    have heq : (runAppends reqs).list_job_logs j limit (some k) =
        (logsFor (runAppends reqs) j).drop k := by
      rw [list_job_logs_some_eq, hfilter,
        List.Sorted.insertionSort_eq hsorted_drop,
        List.take_of_length_le (by rw [List.length_drop, hlen]; exact hlim)]
    refine ⟨heq, ?_⟩
    rw [heq, List.map_drop, hmap, range'_drop]
    congr 1
    omega

/-- C6 witness: three appends, two for job "jw"; tailing with no after_seq
returns the job's two lines, and tailing after 1 returns the second line
only. -/
theorem c6_log_tail_witness :
    ((runAppends reqsW).list_job_logs "jw" 10 none = logsFor (runAppends reqsW) "jw") ∧
    ((runAppends reqsW).list_job_logs "jw" 10 (some 1) =
      (logsFor (runAppends reqsW) "jw").drop 1) :=
  ⟨((c6_log_tail reqsW "jw" 10 1).1 (by decide)).1,
   (((c6_log_tail reqsW "jw" 10 1).2 (by decide)) (by decide)).1⟩
